import Mathlib

/-!
Verification of the reconciliation / writeback core of the HMI LiveRamp
Alerts Tracker (src/Code.js) against its natural-language specification.

The relevant Apps-Script functions are shallowly embedded as pure Lean
functions.  Sheet cells are modelled as `String` (the source coerces every
cell it hashes or concatenates with `String(c || "")`, which sends null,
undefined and the empty string to `""`; JS truthiness tests on such cells
agree with `≠ ""` under this quotient).  Checkbox cells are modelled as
`Bool` (the source compares them with `=== true`).  JS 32-bit integer
coercion is modelled explicitly on `Int`; `charCodeAt` is modelled by the
character's code point (identical on the Basic Multilingual Plane, and no
property below depends on surrogate behaviour).
-/

namespace LiveRamp

/-- JS `ToInt32`: reduce an integer modulo 2^32 into `[-2^31, 2^31)`. -/
def toInt32 (x : Int) : Int :=
  let m := x % 4294967296
  if m < 2147483648 then m else m - 4294967296

/-- One iteration of the loop in `simpleHash_` (src/Code.js:447-455):
`hash = ((hash << 5) - hash) + char; hash = hash & hash`.
`hash << 5` wraps to Int32 before the subtraction; `hash & hash` is the
final ToInt32 coercion. -/
def hashStep (h : Int) (c : Nat) : Int :=
  toInt32 (toInt32 (h * 32) - h + (c : Int))

/-- The signed 32-bit accumulator computed by `simpleHash_`'s loop. -/
def simpleHashInt (s : String) : Int :=
  s.data.foldl (fun h ch => hashStep h ch.toNat) 0

/-- Digit character for JS `Number.prototype.toString(36)` (0-9 then a-z). -/
def base36Digit (d : Nat) : Char :=
  if d < 10 then Char.ofNat (48 + d) else Char.ofNat (87 + d)

/-- Accumulate base-36 digits, least significant last.  The first argument
is fuel (structural recursion so that the kernel can evaluate it); since
`n / 36 < n` for `n > 0`, fuel `n` always suffices. -/
def toBase36Aux : Nat → Nat → List Char → List Char
  | 0, _, acc => acc
  | fuel + 1, n, acc =>
      if n = 0 then acc else toBase36Aux fuel (n / 36) (base36Digit (n % 36) :: acc)

/-- JS `n.toString(36)` for a nonnegative integer. -/
def toBase36 (n : Nat) : String :=
  if n = 0 then "0" else String.mk (toBase36Aux n n [])

/-- `simpleHash_(str)` (src/Code.js:447-455): 32-bit rolling hash,
absolute value, rendered in base 36. -/
def simpleHash_ (s : String) : String :=
  toBase36 (simpleHashInt s).natAbs

/-- One row fetched from the LiveRamp source sheet, columns A:G
(src/Code.js:34-42).  All cells string-coerced, empty-safe. -/
structure ExternalRecord where
  date : String
  product : String
  workflow : String
  issue : String
  request : String
  comment : String
  resolved : String
deriving DecidableEq, Repr

/-- `computeThreadKey_(row)` (src/Code.js:434-439): hash of
Product|Workflow|Issue|Request, excluding Date. -/
def computeThreadKey_ (r : ExternalRecord) : String :=
  simpleHash_ (r.product ++ "|" ++ r.workflow ++ "|" ++ r.issue ++ "|" ++ r.request)

/-- `computeRowHash_(row)` (src/Code.js:441-445): hash of all seven
columns A:G joined with "|", including Date. -/
def computeRowHash_ (r : ExternalRecord) : String :=
  simpleHash_ (r.date ++ "|" ++ r.product ++ "|" ++ r.workflow ++ "|" ++ r.issue ++ "|"
    ++ r.request ++ "|" ++ r.comment ++ "|" ++ r.resolved)

/-- One row of the Raw_Alerts mirror table, as written by `syncFromLiveRamp`
(src/Code.js:374-388): the seven source columns plus metadata. -/
structure RawRow where
  cols : ExternalRecord
  syncedAt : String
  threadKey : String
  rowHash : String
  sourceRow : Nat
  firstSeen : String
  lastSeen : String
deriving DecidableEq, Repr

/-- One row of the Working_Alerts table, 20 columns
(src/Code.js:44-66 and 521-542). -/
structure WorkRow where
  date : String
  product : String
  workflow : String
  issue : String
  request : String
  lrComment : String
  lrResolved : String
  group : String
  template : String
  freeText : String
  composed : String
  pushReady : Bool
  lastPushedAt : String
  lastPushedText : String
  readyToResolve : Bool
  lrUpdatedAfterRes : Bool
  notes : String
  threadKey : String
  rowHash : String
  sourceRow : Nat
deriving DecidableEq, Repr

/-- JS object lookup for the maps built with `map[key] = value` in
`loadPreviousRawData_` and `loadExistingWorkingAlerts_`: a later assignment
to the same key overwrites an earlier one, so the lookup returns the
value of the LAST entry bearing the key. -/
def jsLookup {α : Type} (m : List (String × α)) (k : String) : Option α :=
  (m.reverse.find? (fun p => p.1 == k)).map (fun p => p.2)

/-- `loadPreviousRawData_(rawSheet)` (src/Code.js:418-432): key
`threadKey + "|" + sourceRow` mapped to the stored `firstSeen`, entries
assigned in sheet order (duplicates overwrite, see `jsLookup`). -/
def loadPreviousRawData_ (rows : List RawRow) : List (String × String) :=
  rows.map (fun r => (r.threadKey ++ "|" ++ toString r.sourceRow, r.firstSeen))

/-- The empty-row skip test of `syncFromLiveRamp` (src/Code.js:363):
`if (!row[0] && !row[1] && !row[2]) return;` — i.e. Date, Product and
Workflow all empty. -/
def skipRow (r : ExternalRecord) : Bool :=
  r.date == "" && r.product == "" && r.workflow == ""

/-- The Raw_Alerts row built for the record at 0-based index `idx`
(src/Code.js:365-388): `sourceRowNum = headerRow + 1 + idx`, the two
fingerprints, and first-seen carried forward from the previous raw data
when the history key is present. -/
def rawOf (prevRaw : List (String × String)) (headerRow : Nat) (syncTime : String)
    (idx : Nat) (r : ExternalRecord) : RawRow :=
  let sourceRowNum := headerRow + 1 + idx
  let threadKey := computeThreadKey_ r
  let rowHash := computeRowHash_ r
  let histKey := threadKey ++ "|" ++ toString sourceRowNum
  let firstSeen :=
    match jsLookup prevRaw histKey with
    | some fs => fs
    | none => syncTime
  { cols := r, syncedAt := syncTime, threadKey := threadKey, rowHash := rowHash,
    sourceRow := sourceRowNum, firstSeen := firstSeen, lastSeen := syncTime }

/-- The `lrData.forEach((row, idx) => ...)` loop of `syncFromLiveRamp`
(src/Code.js:361-389), recursion on the fetched records carrying the
0-based index `idx`. -/
def syncRawAux (prevRaw : List (String × String)) (headerRow : Nat) (syncTime : String) :
    Nat → List ExternalRecord → List RawRow
  | _, [] => []
  | idx, r :: rest =>
      if skipRow r then syncRawAux prevRaw headerRow syncTime (idx + 1) rest
      else rawOf prevRaw headerRow syncTime idx r ::
        syncRawAux prevRaw headerRow syncTime (idx + 1) rest

/-- The rows `syncFromLiveRamp` writes to Raw_Alerts for a fetched batch. -/
def syncRawRows (prevRaw : List (String × String)) (headerRow : Nat) (syncTime : String)
    (lrData : List ExternalRecord) : List RawRow :=
  syncRawAux prevRaw headerRow syncTime 0 lrData

/-- The fields `loadExistingWorkingAlerts_` extracts from one stored
Working_Alerts row (src/Code.js:617-629). -/
structure ExistingWA where
  group : String
  template : String
  freeText : String
  composed : String
  pushReady : Bool
  lastPushedAt : String
  lastPushedText : String
  readyToResolve : Bool
  lrUpdatedAfterRes : Bool
  notes : String
  rowHash : String
deriving DecidableEq, Repr

/-- The composite key `threadKey + "|" + sourceRow` of a stored
Working_Alerts row (src/Code.js:615). -/
def waKey (r : WorkRow) : String :=
  r.threadKey ++ "|" ++ toString r.sourceRow

/-- The field extraction `loadExistingWorkingAlerts_` performs on one
stored Working_Alerts row (src/Code.js:617-629). -/
def extractWA (r : WorkRow) : ExistingWA :=
  { group := r.group, template := r.template, freeText := r.freeText,
    composed := r.composed, pushReady := r.pushReady, lastPushedAt := r.lastPushedAt,
    lastPushedText := r.lastPushedText, readyToResolve := r.readyToResolve,
    lrUpdatedAfterRes := r.lrUpdatedAfterRes, notes := r.notes, rowHash := r.rowHash }

/-- `loadExistingWorkingAlerts_(waSheet)` (src/Code.js:607-633): key
`threadKey + "|" + sourceRow` mapped to the extracted fields, entries
assigned in sheet order (duplicates overwrite, see `jsLookup`). -/
def loadExistingWorkingAlerts_ (rows : List WorkRow) : List (String × ExistingWA) :=
  rows.map fun r => (waKey r, extractWA r)

/-- The per-record body of `updateWorkingAlerts_`'s `rawRows.forEach`
(src/Code.js:471-542): defaults, the group branch, and the user-field
carry-forward when a previous record with the same composite key exists. -/
def reconcileRow (existing : Option ExistingWA) (raw : RawRow) : WorkRow :=
  match existing with
  | some ex =>
      let groupFlag : String × Bool :=
        if ex.rowHash ≠ raw.rowHash then
          if ex.readyToResolve then ("Resolved", true) else ("Updated", false)
        else (ex.group, false)
      { date := raw.cols.date, product := raw.cols.product, workflow := raw.cols.workflow,
        issue := raw.cols.issue, request := raw.cols.request, lrComment := raw.cols.comment,
        lrResolved := raw.cols.resolved,
        group := groupFlag.1,
        template := ex.template, freeText := ex.freeText, composed := ex.composed,
        pushReady := ex.pushReady, lastPushedAt := ex.lastPushedAt,
        lastPushedText := ex.lastPushedText, readyToResolve := ex.readyToResolve,
        lrUpdatedAfterRes := ex.lrUpdatedAfterRes || groupFlag.2,
        notes := ex.notes,
        threadKey := raw.threadKey, rowHash := raw.rowHash, sourceRow := raw.sourceRow }
  | none =>
      { date := raw.cols.date, product := raw.cols.product, workflow := raw.cols.workflow,
        issue := raw.cols.issue, request := raw.cols.request, lrComment := raw.cols.comment,
        lrResolved := raw.cols.resolved,
        group := "New",
        template := "", freeText := "", composed := "",
        pushReady := false, lastPushedAt := "", lastPushedText := "",
        readyToResolve := false, lrUpdatedAfterRes := false, notes := "",
        threadKey := raw.threadKey, rowHash := raw.rowHash, sourceRow := raw.sourceRow }

/-- The auto-compose computation of `updateWorkingAlerts_`
(src/Code.js:582-589). -/
def autoComposed (template freeText : String) : String :=
  if template ≠ "" ∧ freeText ≠ "" then template ++ ", " ++ freeText
  else if template ≠ "" then template
  else if freeText ≠ "" then freeText
  else ""

/-- The value of the fallback spreadsheet formula written at
src/Code.js:595, `=IF(AND(I<>"",J<>""),I&", "&J,IF(I<>"",I,J))`, as read
back from the cell. -/
def composedFormulaValue (template freeText : String) : String :=
  if template ≠ "" ∧ freeText ≠ "" then template ++ ", " ++ freeText
  else if template ≠ "" then template
  else freeText

/-- Final state of a Working_Alerts row after the composed-update rewrite
loop (src/Code.js:576-598): column K receives `autoComposed` when it is
non-empty, else the fallback formula. -/
def finalizeComposed (w : WorkRow) : WorkRow :=
  let a := autoComposed w.template w.freeText
  if a ≠ "" then { w with composed := a }
  else { w with composed := composedFormulaValue w.template w.freeText }

/-- Insert into a list sorted by the comparator (helper for `sortBy`). -/
def insertBy {α : Type} (le : α → α → Bool) (a : α) : List α → List α
  | [] => [a]
  | b :: l => if le a b then a :: b :: l else b :: insertBy le a l

/-- A comparison sort.  JS `Array.prototype.sort` (src/Code.js:546-554)
is an unspecified comparison sort; the comparator there involves JS `Date`
parsing and `localeCompare`, which we keep abstract as a parameter —
no claim below depends on the output order, only on membership/length. -/
def sortBy {α : Type} (le : α → α → Bool) : List α → List α
  | [] => []
  | a :: l => insertBy le a (sortBy le l)

/-- `updateWorkingAlerts_` (src/Code.js:459-605) as the pure table
transformation: reconcile each raw row against the existing-row map,
sort, then apply the composed-update rewrite to each written row. -/
def updateWorkingAlerts_ (cmp : WorkRow → WorkRow → Bool)
    (existingWA : List (String × ExistingWA)) (rawRows : List RawRow) : List WorkRow :=
  let waRows := rawRows.map fun raw =>
    reconcileRow (jsLookup existingWA (raw.threadKey ++ "|" ++ toString raw.sourceRow)) raw
  (sortBy cmp waRows).map finalizeComposed

/-- Code points JS treats as whitespace (`\s` in a RegExp, and
`String.prototype.trim`): WhiteSpace ∪ LineTerminator. -/
def jsWsCodes : List Nat :=
  [9, 10, 11, 12, 13, 32, 160, 5760, 8192, 8193, 8194, 8195, 8196, 8197, 8198, 8199,
   8200, 8201, 8202, 8232, 8233, 8239, 8287, 12288, 65279]

/-- Whether a character is JS whitespace. -/
def isJsWs (c : Char) : Bool :=
  jsWsCodes.contains c.toNat

/-- JS `String.prototype.trim`: strip whitespace from both ends. -/
def jsTrim (s : String) : String :=
  String.mk (((s.data.dropWhile isJsWs).reverse.dropWhile isJsWs).reverse)

/-- JS `toLowerCase` restricted to ASCII letters (no claim depends on
lower-casing outside A-Z). -/
def jsCharLower (c : Char) : Char :=
  if 65 ≤ c.toNat ∧ c.toNat ≤ 90 then Char.ofNat (c.toNat + 32) else c

/-- JS `toLowerCase` on a string. -/
def jsToLower (s : String) : String :=
  String.mk (s.data.map jsCharLower)

/-- The duplicate-suppression normalisation of `pushUpdatesToLiveRamp`
(src/Code.js:800-801): `.toLowerCase().replace(/\s+/g, "")`. -/
def normalizeMsg (s : String) : String :=
  String.mk ((jsToLower s).data.filter (fun c => !(isJsWs c)))

/-- The text written back to the LiveRamp comment cell
(src/Code.js:767 and 811-822): the current cell value is read fresh,
trimmed, a blank-line separator is appended when it is non-empty, then
the formatted timestamp + " ET", a newline and "Horizon: " + message. -/
def appendComment (existingRaw tsFormatted composed : String) : String :=
  let pushTime := tsFormatted ++ " ET"
  let existingText := jsTrim existingRaw
  let newText := existingText
  let newText := if existingText ≠ "" then newText ++ "\n\n" else newText
  let newText := newText ++ pushTime ++ "\n"
  newText ++ "Horizon: " ++ composed

/-- How one Working_Alerts row fares inside `pushUpdatesToLiveRamp`'s
`waData.forEach` (src/Code.js:776-840).  `writeOk` models whether the
external write (the `try` block) succeeds; a `false` lands the row in the
error list without aborting the batch. -/
inductive PushOutcome
  | notConsidered
  | skippedNotReady
  | skippedNoChange
  | pushed
  | errored
deriving DecidableEq, Repr

/-- The per-row decision sequence of `pushUpdatesToLiveRamp`
(src/Code.js:776-806), in source order: empty composed message ⇒ not
considered; neither push-ready nor the resolution template ⇒ not ready;
normalised message equal to the normalised last-pushed text ⇒ no change;
else push (or error if the external write fails). -/
def rowOutcome (resolvedLabel : String) (writeOk : Bool) (row : WorkRow) : PushOutcome :=
  let composed := jsTrim row.composed
  if composed = "" then .notConsidered
  else
    let template := jsTrim row.template
    let isRTR := template == resolvedLabel
    if !row.pushReady && !isRTR then .skippedNotReady
    else if normalizeMsg composed = normalizeMsg (jsTrim row.lastPushedText) then .skippedNoChange
    else if writeOk then .pushed
    else .errored

/-- The Working_Alerts updates applied to a successfully pushed row
(src/Code.js:825-833): stamp Last Pushed At / Last Pushed Text with the
message just sent, and force Group = "Resolved" when the row is marked
ready-to-resolve or carries the resolution template. -/
def applyPushToRow (resolvedLabel pushTime : String) (row : WorkRow) : WorkRow :=
  let composed := jsTrim row.composed
  let template := jsTrim row.template
  let isRTR := template == resolvedLabel
  let row := { row with lastPushedAt := pushTime, lastPushedText := composed }
  if row.readyToResolve || isRTR then { row with group := "Resolved" } else row

/-- The counters accumulated by `pushUpdatesToLiveRamp`
(src/Code.js:769-773) and handed to `logPush_` (src/Code.js:843). -/
structure PushState where
  rowsConsidered : Nat
  rowsPushed : Nat
  rowsSkippedNoChange : Nat
  rowsSkippedNotReady : Nat
  errors : List String
deriving DecidableEq, Repr

/-- Counter update for one row of `pushUpdatesToLiveRamp`'s loop
(src/Code.js:776-840).  The error list records the source row (the
source also appends the caught message text). -/
def pushStep (resolvedLabel : String) (st : PushState) (entry : WorkRow × Bool) : PushState :=
  match rowOutcome resolvedLabel entry.2 entry.1 with
  | .notConsidered => st
  | .skippedNotReady =>
      { st with rowsConsidered := st.rowsConsidered + 1,
                rowsSkippedNotReady := st.rowsSkippedNotReady + 1 }
  | .skippedNoChange =>
      { st with rowsConsidered := st.rowsConsidered + 1,
                rowsSkippedNoChange := st.rowsSkippedNoChange + 1 }
  | .pushed =>
      { st with rowsConsidered := st.rowsConsidered + 1,
                rowsPushed := st.rowsPushed + 1 }
  | .errored =>
      { st with rowsConsidered := st.rowsConsidered + 1,
                errors := st.errors ++ ["Row " ++ toString entry.1.sourceRow] }

/-- The counters at the end of one push cycle over the whole
Working_Alerts table, each row paired with its external-write success. -/
def pushUpdatesCounters (resolvedLabel : String) (rows : List (WorkRow × Bool)) : PushState :=
  rows.foldl (pushStep resolvedLabel) ⟨0, 0, 0, 0, []⟩

/-! Concrete inputs used by the end-to-end scenario and the witnesses. -/

/-- A trivial comparator instantiating the sort parameter. -/
def trueCmp : WorkRow → WorkRow → Bool := fun _ _ => true

/-- The end-to-end scenario record (spec §8): one source row, the
Resolved checkbox unchecked (falsy, string-coerced to ""). -/
def c1rec : ExternalRecord :=
  { date := "2026-02-01", product := "Pixel", workflow := "W1",
    issue := "Cannot decommission", request := "Please advise",
    comment := "", resolved := "" }

/-- Raw_Alerts after the scenario's first sync (empty prior state). -/
def c1raw1 : List RawRow :=
  syncRawRows (loadPreviousRawData_ []) 1 "02/01/2026 06:00:00" [c1rec]

/-- Working_Alerts after the scenario's first sync. -/
def c1working1 : List WorkRow :=
  updateWorkingAlerts_ trueCmp (loadExistingWorkingAlerts_ []) c1raw1

/-- The human fills the Template dropdown and ticks Push Ready; the
fallback formula the sync left in the composed column (src/Code.js:595)
recomputes the composed update from the edited fields. -/
def c1edited : List WorkRow :=
  c1working1.map fun w =>
    let w2 := { w with template := "Investigating internally", pushReady := true }
    { w2 with composed := composedFormulaValue w2.template w2.freeText }

/-- The push cycle then sends every row `pushUpdatesToLiveRamp` pushes,
stamping Last Pushed At / Last Pushed Text (src/Code.js:825-833). -/
def c1pushed : List WorkRow :=
  c1edited.map fun w =>
    if rowOutcome "READY TO BE RESOLVED" true w = PushOutcome.pushed then
      applyPushToRow "READY TO BE RESOLVED" "02/01/2026 11:00 PM ET" w
    else w

/-- Raw_Alerts after the scenario's second sync; the source is unchanged. -/
def c1raw2 : List RawRow :=
  syncRawRows (loadPreviousRawData_ c1raw1) 1 "02/02/2026 06:00:00" [c1rec]

/-- Working_Alerts after the scenario's second sync. -/
def c1working2 : List WorkRow :=
  updateWorkingAlerts_ trueCmp (loadExistingWorkingAlerts_ c1pushed) c1raw2

/-- A stored Working_Alerts row with composite key "k|2". -/
def c3dup1 : WorkRow :=
  { date := "2026-02-01", product := "P", workflow := "W", issue := "I", request := "R",
    lrComment := "", lrResolved := "", group := "Ongoing", template := "first",
    freeText := "", composed := "first", pushReady := false, lastPushedAt := "",
    lastPushedText := "", readyToResolve := false, lrUpdatedAfterRes := false,
    notes := "", threadKey := "k", rowHash := "h", sourceRow := 2 }

/-- A second stored row with the SAME composite key "k|2". -/
def c3dup2 : WorkRow :=
  { c3dup1 with template := "second", composed := "second" }

/-- An incoming raw row whose composite key matches the two duplicates. -/
def c3raw : RawRow :=
  { cols := { date := "2026-02-01", product := "P", workflow := "W", issue := "I",
              request := "R", comment := "", resolved := "" },
    syncedAt := "t2", threadKey := "k", rowHash := "h", sourceRow := 2,
    firstSeen := "t1", lastSeen := "t2" }

/-- A fetched record whose Date, Product and Workflow are empty but whose
Issue — an identity-relevant field — is not. -/
def c4blankish : ExternalRecord :=
  { date := "", product := "", workflow := "", issue := "X", request := "",
    comment := "", resolved := "" }

/-- A fetched record with all four identity-relevant fields (Product,
Workflow, Issue, Request) empty but a non-empty Date. -/
def c4dateonly : ExternalRecord :=
  { date := "2026-02-01", product := "", workflow := "", issue := "", request := "",
    comment := "", resolved := "" }

/-- A previous Working_Alerts record with all seven human-entered fields
non-trivially populated. -/
def sampleEx : ExistingWA :=
  { group := "Ongoing", template := "Waiting on client", freeText := "ETA 2 weeks",
    composed := "stale", pushReady := true, lastPushedAt := "t0", lastPushedText := "old",
    readyToResolve := false, lrUpdatedAfterRes := false, notes := "n", rowHash := "h" }

/-- An existing-row map holding `sampleEx` under the key "k|2". -/
def sampleMap : List (String × ExistingWA) := [("k|2", sampleEx)]

/-- An incoming raw row with composite key "k|2" and unchanged row hash. -/
def sampleRaw : RawRow :=
  { cols := { date := "d", product := "P", workflow := "W", issue := "I", request := "R",
              comment := "", resolved := "" },
    syncedAt := "t", threadKey := "k", rowHash := "h", sourceRow := 2,
    firstSeen := "t", lastSeen := "t" }

/-- The Working_Alerts row the sync derives from `sampleRaw`. -/
def sampleOut : WorkRow :=
  finalizeComposed
    (reconcileRow (jsLookup sampleMap (sampleRaw.threadKey ++ "|" ++ toString sampleRaw.sourceRow))
      sampleRaw)

/-- A previous record whose stored row hash differs from the incoming one
and which the human marked ready-to-resolve. -/
def c9ex : ExistingWA :=
  { sampleEx with rowHash := "h1", readyToResolve := true }

/-- A previous record whose sticky updated-after-resolution flag is set. -/
def c9exFlag : ExistingWA :=
  { sampleEx with lrUpdatedAfterRes := true }

/-- A Working_Alerts row that is considered and eligible at push time. -/
def samplePushRow : WorkRow :=
  { date := "d", product := "P", workflow := "W", issue := "I", request := "R",
    lrComment := "", lrResolved := "", group := "Ongoing", template := "",
    freeText := "Waiting on client", composed := "Waiting on client", pushReady := true,
    lastPushedAt := "", lastPushedText := "", readyToResolve := false,
    lrUpdatedAfterRes := false, notes := "", threadKey := "k", rowHash := "h",
    sourceRow := 2 }

/-- A push batch exercising all four counted buckets plus the uncounted
empty-composed case. -/
def samplePushRows : List (WorkRow × Bool) :=
  [(samplePushRow, true),
   ({ samplePushRow with pushReady := false }, true),
   ({ samplePushRow with lastPushedText := "waiting ON client" }, true),
   ({ samplePushRow with composed := "" }, true),
   (samplePushRow, false)]

/-- An arbitrary mid-cycle counter state. -/
def samplePushState : PushState := ⟨5, 2, 1, 1, ["Row 9"]⟩

/-! Helper lemmas. -/

theorem toNat_charOfNat (n : Nat) (h : n.isValidChar) : (Char.ofNat n).toNat = n := by
  unfold Char.ofNat
  rw [dif_pos h]
  unfold Char.ofNatAux Char.toNat
  exact BitVec.toNat_ofNatLt _ _

theorem contains_jsWsCodes_false (n : Nat) (h1 : 65 ≤ n) (h2 : n ≤ 122) :
    jsWsCodes.contains n = false := by
  simp [jsWsCodes, List.contains]
  omega

theorem isJsWs_jsCharLower (c : Char) : isJsWs (jsCharLower c) = isJsWs c := by
  unfold jsCharLower isJsWs
  by_cases h : 65 ≤ c.toNat ∧ c.toNat ≤ 90
  · rw [if_pos h]
    have hv : (c.toNat + 32).isValidChar := Or.inl (by omega)
    rw [toNat_charOfNat _ hv]
    rw [contains_jsWsCodes_false _ (by omega) (by omega),
        contains_jsWsCodes_false _ (by omega) (by omega)]
  · rw [if_neg h]

theorem filter_not_ws_takeWhile (l : List Char) :
    ((l.takeWhile isJsWs).map jsCharLower).filter (fun c => !(isJsWs c)) = [] := by
  rw [List.filter_eq_nil_iff]
  intro a ha
  obtain ⟨x, hx, rfl⟩ := List.mem_map.mp ha
  have hw := List.mem_takeWhile_imp hx
  simp [isJsWs_jsCharLower, hw]

theorem filter_lower_dropWhile (l : List Char) :
    ((l.dropWhile isJsWs).map jsCharLower).filter (fun c => !(isJsWs c)) =
    (l.map jsCharLower).filter (fun c => !(isJsWs c)) := by
  conv_rhs => rw [← List.takeWhile_append_dropWhile isJsWs l]
  rw [List.map_append, List.filter_append, filter_not_ws_takeWhile, List.nil_append]

/-- Trimming first does not change the whitespace-free normalisation. -/
theorem normalizeMsg_jsTrim (s : String) : normalizeMsg (jsTrim s) = normalizeMsg s := by
  unfold normalizeMsg jsToLower jsTrim
  apply congrArg String.mk
  show ((((s.data.dropWhile isJsWs).reverse.dropWhile isJsWs).reverse).map jsCharLower).filter
        (fun c => !(isJsWs c)) = (s.data.map jsCharLower).filter (fun c => !(isJsWs c))
  rw [List.map_reverse, List.filter_reverse, filter_lower_dropWhile,
      List.map_reverse, List.filter_reverse, List.reverse_reverse, filter_lower_dropWhile]

theorem mem_insertBy {α : Type} (le : α → α → Bool) (x a : α) (l : List α) :
    a ∈ insertBy le x l ↔ a = x ∨ a ∈ l := by
  induction l with
  | nil => simp [insertBy]
  | cons b t ih =>
      unfold insertBy
      by_cases h : le x b
      · simp [h, List.mem_cons]
      · simp [h, List.mem_cons, ih]
        tauto

theorem mem_sortBy {α : Type} (le : α → α → Bool) (a : α) (l : List α) :
    a ∈ sortBy le l ↔ a ∈ l := by
  induction l with
  | nil => simp [sortBy]
  | cons b t ih =>
      unfold sortBy
      rw [mem_insertBy, ih, List.mem_cons]

theorem length_insertBy {α : Type} (le : α → α → Bool) (x : α) (l : List α) :
    (insertBy le x l).length = l.length + 1 := by
  induction l with
  | nil => rfl
  | cons b t ih =>
      unfold insertBy
      by_cases h : le x b
      · simp [h]
      · simp [h, ih]

theorem length_sortBy {α : Type} (le : α → α → Bool) (l : List α) :
    (sortBy le l).length = l.length := by
  induction l with
  | nil => rfl
  | cons b t ih =>
      unfold sortBy
      rw [length_insertBy, ih, List.length_cons]

/-- The composed-update rewrite changes no field other than `composed`. -/
theorem finalizeComposed_fields (w : WorkRow) :
    (finalizeComposed w).template = w.template ∧ (finalizeComposed w).freeText = w.freeText ∧
    (finalizeComposed w).pushReady = w.pushReady ∧
    (finalizeComposed w).lastPushedAt = w.lastPushedAt ∧
    (finalizeComposed w).lastPushedText = w.lastPushedText ∧
    (finalizeComposed w).readyToResolve = w.readyToResolve ∧
    (finalizeComposed w).notes = w.notes ∧ (finalizeComposed w).group = w.group ∧
    (finalizeComposed w).lrUpdatedAfterRes = w.lrUpdatedAfterRes := by
  unfold finalizeComposed
  by_cases h : autoComposed w.template w.freeText ≠ "" <;> simp [h]

/-- After the rewrite, the composed column holds exactly the value of the
fallback formula (the written literal and the formula agree whenever the
literal is non-empty). -/
theorem finalizeComposed_composed (w : WorkRow) :
    (finalizeComposed w).composed = composedFormulaValue w.template w.freeText := by
  have hne : w.template ≠ "" → w.freeText ≠ "" →
      w.template ++ ", " ++ w.freeText ≠ "" := by
    intro _ _ h
    have h2 := congrArg String.length h
    rw [String.length_append, String.length_append] at h2
    have h3 : (", ").length = 2 := rfl
    have h0 : ("" : String).length = 0 := rfl
    rw [h3, h0] at h2
    omega
  unfold finalizeComposed autoComposed composedFormulaValue
  by_cases ht : w.template = "" <;> by_cases hf : w.freeText = "" <;>
    simp [ht, hf, hne]

/-- The rows produced by one `updateWorkingAlerts_` cycle are exactly the
reconciliations of the incoming raw rows (the sort only permutes them). -/
theorem mem_updateWorkingAlerts (cmp : WorkRow → WorkRow → Bool)
    (m : List (String × ExistingWA)) (raws : List RawRow) (w : WorkRow) :
    w ∈ updateWorkingAlerts_ cmp m raws ↔
    ∃ raw ∈ raws,
      w = finalizeComposed
        (reconcileRow (jsLookup m (raw.threadKey ++ "|" ++ toString raw.sourceRow)) raw) := by
  unfold updateWorkingAlerts_
  constructor
  · intro hw
    obtain ⟨v, hv, rfl⟩ := List.mem_map.mp hw
    obtain ⟨raw, hr, rfl⟩ := List.mem_map.mp ((mem_sortBy _ _ _).mp hv)
    exact ⟨raw, hr, rfl⟩
  · rintro ⟨raw, hr, rfl⟩
    exact List.mem_map.mpr ⟨_, (mem_sortBy _ _ _).mpr (List.mem_map.mpr ⟨raw, hr, rfl⟩), rfl⟩

theorem skipRow_iff (r : ExternalRecord) :
    skipRow r = true ↔ (r.date = "" ∧ r.product = "" ∧ r.workflow = "") := by
  simp [skipRow]
  tauto

/-- The raw rows a sync emits are exactly the `rawOf` rows of the
non-skipped fetched records, at their positions. -/
theorem mem_syncRawAux (p : List (String × String)) (hr : Nat) (st : String) :
    ∀ (l : List ExternalRecord) (idx : Nat) (rr : RawRow),
    (rr ∈ syncRawAux p hr st idx l ↔
      ∃ j, ∃ hj : j < l.length, skipRow l[j] = false ∧ rr = rawOf p hr st (idx + j) l[j]) := by
  intro l
  induction l with
  | nil =>
      intro idx rr
      simp [syncRawAux]
  | cons r rest ih =>
      intro idx rr
      unfold syncRawAux
      by_cases hsk : skipRow r
      · rw [if_pos hsk, ih (idx + 1)]
        constructor
        · rintro ⟨j, hj, hs, heq⟩
          refine ⟨j + 1, Nat.succ_lt_succ hj, ?_, ?_⟩
          · simpa using hs
          · have harith : idx + 1 + j = idx + (j + 1) := by omega
            rw [harith] at heq
            simpa using heq
        · rintro ⟨j, hj, hs, heq⟩
          cases j with
          | zero =>
              rw [List.getElem_cons_zero] at hs
              rw [hs] at hsk
              exact absurd hsk (by simp)
          | succ j2 =>
              have hj2 : j2 < rest.length := by
                simpa using Nat.lt_of_succ_lt_succ hj
              refine ⟨j2, hj2, ?_, ?_⟩
              · simpa using hs
              · have harith : idx + (j2 + 1) = idx + 1 + j2 := by omega
                rw [harith] at heq
                simpa using heq
      · rw [if_neg hsk, List.mem_cons]
        constructor
        · rintro (rfl | hmem)
          · exact ⟨0, by simp, by simpa using Bool.of_not_eq_true hsk, by simp⟩
          · obtain ⟨j, hj, hs, heq⟩ := (ih (idx + 1) rr).mp hmem
            refine ⟨j + 1, Nat.succ_lt_succ hj, by simpa using hs, ?_⟩
            have harith : idx + 1 + j = idx + (j + 1) := by omega
            rw [harith] at heq
            simpa using heq
        · rintro ⟨j, hj, hs, heq⟩
          cases j with
          | zero =>
              left
              simpa using heq
          | succ j2 =>
              right
              have hj2 : j2 < rest.length := by
                simpa using Nat.lt_of_succ_lt_succ hj
              refine (ih (idx + 1) rr).mpr ⟨j2, hj2, by simpa using hs, ?_⟩
              have harith : idx + (j2 + 1) = idx + 1 + j2 := by omega
              rw [harith] at heq
              simpa using heq

/-- Because a later `map[key] = value` assignment overwrites, the lookup
used by the reconciler returns the LAST stored row bearing the key. -/
theorem jsLookup_loadExisting (rows : List WorkRow) (k : String) :
    jsLookup (loadExistingWorkingAlerts_ rows) k =
      (rows.reverse.find? (fun r => waKey r == k)).map extractWA := by
  unfold jsLookup loadExistingWorkingAlerts_
  rw [← List.map_reverse, List.find?_map, Option.map_map]
  rfl

/-- The post-push row update leaves the fields the next push decision
reads unchanged, except for stamping Last Pushed Text. -/
theorem applyPushToRow_fields (label pt : String) (row : WorkRow) :
    (applyPushToRow label pt row).composed = row.composed ∧
    (applyPushToRow label pt row).template = row.template ∧
    (applyPushToRow label pt row).pushReady = row.pushReady ∧
    (applyPushToRow label pt row).lastPushedText = jsTrim row.composed := by
  unfold applyPushToRow
  by_cases h : (row.readyToResolve || (jsTrim row.template == label)) = true <;> simp [h]

/-- The counter partition is a loop invariant of the push fold. -/
theorem pushFold_partition (label : String) :
    ∀ (rows : List (WorkRow × Bool)) (st : PushState),
    st.rowsConsidered =
      st.rowsPushed + st.rowsSkippedNoChange + st.rowsSkippedNotReady + st.errors.length →
    (rows.foldl (pushStep label) st).rowsConsidered =
      (rows.foldl (pushStep label) st).rowsPushed +
      (rows.foldl (pushStep label) st).rowsSkippedNoChange +
      (rows.foldl (pushStep label) st).rowsSkippedNotReady +
      (rows.foldl (pushStep label) st).errors.length := by
  intro rows
  induction rows with
  | nil => intro st h; exact h
  | cons e rest ih =>
      intro st h
      rw [List.foldl_cons]
      apply ih
      unfold pushStep
      cases ho : rowOutcome label e.2 e.1 <;> simp [List.length_append, h] <;> omega

/-! The claims. -/

set_option maxRecDepth 100000 in
/-- C1: In the end-to-end lifecycle scenario — first sync yields
Group = "New", the human sets the template and Push Ready, the push
succeeds and stamps Last Pushed Text — a second sync with the source
unchanged does NOT yield Group = "Ongoing": `updateWorkingAlerts_` carries
the previous group forward (src/Code.js:503), so the row stays "New",
contradicting the claim and the repository's own documentation. -/
theorem second_sync_unchanged_keeps_new :
    c1working1.map (fun w => w.group) = ["New"] ∧
    c1pushed.map (fun w => w.lastPushedText) = ["Investigating internally"] ∧
    c1working2.map (fun w => w.group) = ["New"] ∧
    c1working2.map (fun w => w.group) ≠ ["Ongoing"] := by
  refine ⟨by decide, by decide, by decide, by decide⟩

/-- C2: Every row of the sync output is the reconciliation of one raw
row, and whenever a previous WorkingRecord with that composite key
exists, the seven human-entered fields (Template, FreeText, PushReady,
LastPushedAt, LastPushedText, ReadyToResolve, InternalNotes) are carried
into the output verbatim, in every group branch. -/
theorem sync_preserves_human_fields (cmp : WorkRow → WorkRow → Bool)
    (m : List (String × ExistingWA)) (raws : List RawRow) (w : WorkRow)
    (hw : w ∈ updateWorkingAlerts_ cmp m raws) :
    ∃ raw ∈ raws,
      w = finalizeComposed
        (reconcileRow (jsLookup m (raw.threadKey ++ "|" ++ toString raw.sourceRow)) raw) ∧
      ∀ ex, jsLookup m (raw.threadKey ++ "|" ++ toString raw.sourceRow) = some ex →
        w.template = ex.template ∧ w.freeText = ex.freeText ∧ w.pushReady = ex.pushReady ∧
        w.lastPushedAt = ex.lastPushedAt ∧ w.lastPushedText = ex.lastPushedText ∧
        w.readyToResolve = ex.readyToResolve ∧ w.notes = ex.notes := by
  obtain ⟨raw, hr, rfl⟩ := (mem_updateWorkingAlerts cmp m raws w).mp hw
  refine ⟨raw, hr, rfl, ?_⟩
  intro ex hex
  rw [hex]
  have hf := finalizeComposed_fields (reconcileRow (some ex) raw)
  exact ⟨hf.1, hf.2.1, hf.2.2.1, hf.2.2.2.1, hf.2.2.2.2.1, hf.2.2.2.2.2.1, hf.2.2.2.2.2.2.1⟩

/-- C2 witness: the preservation theorem applied to a concrete one-row
sync against a populated previous record. -/
theorem sync_preserves_human_fields_witness :
    ∃ raw ∈ [sampleRaw],
      sampleOut = finalizeComposed
        (reconcileRow (jsLookup sampleMap (raw.threadKey ++ "|" ++ toString raw.sourceRow)) raw) ∧
      ∀ ex, jsLookup sampleMap (raw.threadKey ++ "|" ++ toString raw.sourceRow) = some ex →
        sampleOut.template = ex.template ∧ sampleOut.freeText = ex.freeText ∧
        sampleOut.pushReady = ex.pushReady ∧ sampleOut.lastPushedAt = ex.lastPushedAt ∧
        sampleOut.lastPushedText = ex.lastPushedText ∧
        sampleOut.readyToResolve = ex.readyToResolve ∧ sampleOut.notes = ex.notes :=
  sync_preserves_human_fields trueCmp sampleMap [sampleRaw] sampleOut (by decide)

/-- C3 counterexample: with two stored rows sharing the composite key
"k|2", the sync does not abort — it completes and silently uses the LAST
duplicate's fields, contrary to the claimed fail-fast behaviour. -/
theorem duplicate_keys_silently_picked :
    (updateWorkingAlerts_ trueCmp (loadExistingWorkingAlerts_ [c3dup1, c3dup2]) [c3raw]).map
        (fun w => w.template) = ["second"] ∧
    waKey c3dup1 = waKey c3dup2 ∧ c3dup1.template ≠ c3dup2.template := by
  refine ⟨by decide, by decide, by decide⟩

/-- C3 amended: duplicate CompositeKeys in the previous state are not
fatal: the previous-state lookup silently resolves them to the last
stored row, and the sync completes, emitting one output row per incoming
raw row. -/
theorem duplicate_keys_last_wins (rows : List WorkRow) (k : String) :
    jsLookup (loadExistingWorkingAlerts_ rows) k =
      (rows.reverse.find? (fun r => waKey r == k)).map extractWA ∧
    ∀ (cmp : WorkRow → WorkRow → Bool) (m : List (String × ExistingWA)) (raws : List RawRow),
      (updateWorkingAlerts_ cmp m raws).length = raws.length := by
  constructor
  · exact jsLookup_loadExisting rows k
  · intro cmp m raws
    unfold updateWorkingAlerts_
    rw [List.length_map, length_sortBy, List.length_map]

/-- C4 counterexample: the skip test reads Date, Product and Workflow —
not the four identity-relevant fields.  A record with a non-empty Issue
(but empty Date/Product/Workflow) is excluded, and a record with all four
identity fields empty (but a non-empty Date) is kept. -/
theorem skip_rule_counterexample :
    (syncRawRows (loadPreviousRawData_ []) 1 "t" [c4blankish] = [] ∧ c4blankish.issue ≠ "") ∧
    ((syncRawRows (loadPreviousRawData_ []) 1 "t" [c4dateonly]).length = 1 ∧
      c4dateonly.product = "" ∧ c4dateonly.workflow = "" ∧ c4dateonly.issue = "" ∧
      c4dateonly.request = "") := by
  refine ⟨⟨by decide, by decide⟩, by decide, by decide, by decide, by decide, by decide⟩

/-- C4 amended: a fetched record is excluded from the sync output (no row
at its source position) if and only if its Date, Product and Workflow
columns are all empty. -/
theorem skip_iff_first_three_empty (p : List (String × String)) (hr : Nat) (st : String)
    (lrData : List ExternalRecord) (i : Nat) (h : i < lrData.length) :
    (lrData[i].date = "" ∧ lrData[i].product = "" ∧ lrData[i].workflow = "") ↔
    ∀ rr ∈ syncRawRows p hr st lrData, rr.sourceRow ≠ hr + 1 + i := by
  constructor
  · intro htriple rr hmem
    obtain ⟨j, hj, hs, rfl⟩ := (mem_syncRawAux p hr st lrData 0 rr).mp hmem
    intro hsr
    have h2 : hr + 1 + (0 + j) = hr + 1 + i := hsr
    have hji : j = i := by omega
    subst hji
    rw [(skipRow_iff _).mpr htriple] at hs
    exact absurd hs (by simp)
  · intro hall
    by_contra htriple
    have hs : skipRow lrData[i] = false := by
      cases hsk : skipRow lrData[i]
      · rfl
      · exact absurd ((skipRow_iff _).mp hsk) htriple
    have hmem := (mem_syncRawAux p hr st lrData 0 (rawOf p hr st i lrData[i])).mpr
      ⟨i, h, hs, by rw [Nat.zero_add]⟩
    exact hall _ hmem rfl

/-- C4 witness: the amended skip rule at a concrete skipped record. -/
theorem skip_iff_first_three_empty_witness :
    (([c4blankish] : List ExternalRecord)[0].date = "" ∧
      ([c4blankish] : List ExternalRecord)[0].product = "" ∧
      ([c4blankish] : List ExternalRecord)[0].workflow = "") ↔
    ∀ rr ∈ syncRawRows (loadPreviousRawData_ []) 1 "t" [c4blankish],
      rr.sourceRow ≠ 1 + 1 + 0 :=
  skip_iff_first_three_empty (loadPreviousRawData_ []) 1 "t" [c4blankish] 0 (by decide)

/-- C5: `computeThreadKey_` is a pure total function of the Product,
Workflow, Issue and Request fields, so records agreeing on those four
fields — whatever their Dates — get equal thread keys. -/
theorem threadKey_identity_stability (r1 r2 : ExternalRecord)
    (hp : r1.product = r2.product) (hw : r1.workflow = r2.workflow)
    (hi : r1.issue = r2.issue) (hr : r1.request = r2.request)
    (hd : r1.date ≠ r2.date) :
    computeThreadKey_ r1 = computeThreadKey_ r2 := by
  unfold computeThreadKey_
  rw [hp, hw, hi, hr]

/-- C5 witness: identity stability at two concrete records differing in
Date (and in the fields outside the key). -/
theorem threadKey_identity_stability_witness :
    computeThreadKey_
        { date := "2026-02-01", product := "Pixel", workflow := "W1", issue := "I",
          request := "R", comment := "", resolved := "" } =
      computeThreadKey_
        { date := "2026-02-02", product := "Pixel", workflow := "W1", issue := "I",
          request := "R", comment := "c", resolved := "x" } :=
  threadKey_identity_stability _ _ rfl rfl rfl rfl (by decide)

/-- C6 counterexample: the push trims the current comment value before
appending, so for an old value with trailing whitespace the new value is
NOT exactly the old value followed by the separator and message. -/
theorem appendComment_exact_claim_false :
    appendComment "A\n" "T" "B" = "A\n\nT ET\nHorizon: B" ∧
    "A\n" ++ "\n\n" ++ ("T ET" ++ "\n" ++ "Horizon: B") ≠ appendComment "A\n" "T" "B" := by
  refine ⟨by decide, by decide⟩

/-- C6 amended: the written comment value is exactly the trimmed old
value, a blank-line separator when that is non-empty, the timestamp plus
" ET", a newline and "Horizon: " plus the message — starting directly
with the timestamp when the trimmed old value is empty — and the trimmed
prior content is always preserved as a prefix. -/
theorem appendComment_format (old ts msg : String) :
    appendComment old ts msg =
      (if jsTrim old = "" then ts ++ " ET" ++ "\n" ++ "Horizon: " ++ msg
       else jsTrim old ++ "\n\n" ++ (ts ++ " ET" ++ "\n" ++ "Horizon: " ++ msg)) ∧
    ∃ rest, appendComment old ts msg = jsTrim old ++ rest := by
  unfold appendComment
  by_cases h : jsTrim old = ""
  · constructor
    · simp [h, String.append_assoc]
    · refine ⟨ts ++ " ET" ++ "\n" ++ "Horizon: " ++ msg, ?_⟩
      simp [h, String.append_assoc]
  · constructor
    · simp [h, String.append_assoc]
    · refine ⟨"\n\n" ++ (ts ++ " ET" ++ "\n" ++ "Horizon: " ++ msg), ?_⟩
      simp [h, String.append_assoc]

/-- C7: a considered, eligible row is skipped as "no change" exactly when
its composed message equals its last-pushed text after lower-casing and
removing all whitespace; and since a successful push stores the sent
message into Last Pushed Text, pushing the same message again is a
counted no-op. -/
theorem push_duplicate_suppression (resolvedLabel pushTime : String) (ok ok2 : Bool)
    (row : WorkRow) (hcons : jsTrim row.composed ≠ "")
    (helig : row.pushReady = true ∨ jsTrim row.template = resolvedLabel) :
    (rowOutcome resolvedLabel ok row = PushOutcome.skippedNoChange ↔
      normalizeMsg row.composed = normalizeMsg row.lastPushedText) ∧
    (rowOutcome resolvedLabel ok row = PushOutcome.pushed →
      rowOutcome resolvedLabel ok2 (applyPushToRow resolvedLabel pushTime row) =
        PushOutcome.skippedNoChange) := by
  have helig2 : (!row.pushReady && !(jsTrim row.template == resolvedLabel)) = false := by
    rcases helig with h | h
    · simp [h]
    · simp [h]
  have hout : rowOutcome resolvedLabel ok row =
      (if normalizeMsg (jsTrim row.composed) = normalizeMsg (jsTrim row.lastPushedText)
        then PushOutcome.skippedNoChange
        else if ok then PushOutcome.pushed else PushOutcome.errored) := by
    simp [rowOutcome, hcons, helig2]
  constructor
  · rw [hout, normalizeMsg_jsTrim, normalizeMsg_jsTrim]
    by_cases hdup : normalizeMsg row.composed = normalizeMsg row.lastPushedText
    · simp [hdup]
    · cases ok <;> simp [hdup]
  · intro hp
    have hfields := applyPushToRow_fields resolvedLabel pushTime row
    have hcons2 : jsTrim (applyPushToRow resolvedLabel pushTime row).composed ≠ "" := by
      rw [hfields.1]; exact hcons
    have helig3 : (!(applyPushToRow resolvedLabel pushTime row).pushReady &&
        !(jsTrim (applyPushToRow resolvedLabel pushTime row).template == resolvedLabel)) =
          false := by
      rw [hfields.2.2.1, hfields.2.1]
      exact helig2
    simp [rowOutcome, hcons, hcons2, helig3, hfields.1, hfields.2.2.2, normalizeMsg_jsTrim]

/-- C7 witness: a concrete eligible row is pushed (not a duplicate), and
immediately re-pushing it is skipped as "no change". -/
theorem push_duplicate_suppression_witness :
    ((rowOutcome "READY TO BE RESOLVED" true samplePushRow = PushOutcome.skippedNoChange ↔
       normalizeMsg samplePushRow.composed = normalizeMsg samplePushRow.lastPushedText) ∧
     (rowOutcome "READY TO BE RESOLVED" true samplePushRow = PushOutcome.pushed →
       rowOutcome "READY TO BE RESOLVED" true
           (applyPushToRow "READY TO BE RESOLVED" "pt" samplePushRow) =
         PushOutcome.skippedNoChange)) ∧
    rowOutcome "READY TO BE RESOLVED" true samplePushRow = PushOutcome.pushed ∧
    rowOutcome "READY TO BE RESOLVED" true
        (applyPushToRow "READY TO BE RESOLVED" "pt" samplePushRow) =
      PushOutcome.skippedNoChange := by
  have h := push_duplicate_suppression "READY TO BE RESOLVED" "pt" true true samplePushRow
    (by decide) (Or.inl rfl)
  exact ⟨h, by decide, h.2 (by decide)⟩

/-- C8: after a sync, every output row's composed column equals the
template joined with the free text by ", " when both are non-empty, the
non-empty one when exactly one is, and is empty when both are —
irrespective of the previously stored composed value. -/
theorem sync_composed_rule (cmp : WorkRow → WorkRow → Bool)
    (m : List (String × ExistingWA)) (raws : List RawRow) (w : WorkRow)
    (hw : w ∈ updateWorkingAlerts_ cmp m raws) :
    w.composed =
      if w.template ≠ "" ∧ w.freeText ≠ "" then w.template ++ ", " ++ w.freeText
      else if w.template ≠ "" then w.template
      else w.freeText := by
  obtain ⟨raw, hr, rfl⟩ := (mem_updateWorkingAlerts cmp m raws w).mp hw
  have hc := finalizeComposed_composed
    (reconcileRow (jsLookup m (raw.threadKey ++ "|" ++ toString raw.sourceRow)) raw)
  have hf := finalizeComposed_fields
    (reconcileRow (jsLookup m (raw.threadKey ++ "|" ++ toString raw.sourceRow)) raw)
  rw [hc, hf.1, hf.2.1]
  rfl

/-- C8 witness: the composition rule at a concrete synced row whose
previously stored composed value was stale. -/
theorem sync_composed_rule_witness :
    sampleOut.composed =
      if sampleOut.template ≠ "" ∧ sampleOut.freeText ≠ "" then
        sampleOut.template ++ ", " ++ sampleOut.freeText
      else if sampleOut.template ≠ "" then sampleOut.template
      else sampleOut.freeText :=
  sync_composed_rule trueCmp sampleMap [sampleRaw] sampleOut (by decide)

/-- C9: when the stored row hash differs from the incoming one and the
previous record was marked ready-to-resolve, the sync emits Group =
"Resolved" with the updated-after-resolution flag forced true; and a flag
already set in the previous record survives every reconciliation. -/
theorem resolved_flag_sticky (ex : ExistingWA) (raw : RawRow) :
    (ex.rowHash ≠ raw.rowHash → ex.readyToResolve = true →
      (finalizeComposed (reconcileRow (some ex) raw)).group = "Resolved" ∧
      (finalizeComposed (reconcileRow (some ex) raw)).lrUpdatedAfterRes = true) ∧
    (ex.lrUpdatedAfterRes = true →
      (finalizeComposed (reconcileRow (some ex) raw)).lrUpdatedAfterRes = true) := by
  have hf := finalizeComposed_fields (reconcileRow (some ex) raw)
  constructor
  · intro hh hrtr
    constructor
    · rw [hf.2.2.2.2.2.2.2.1]
      unfold reconcileRow
      simp [hh, hrtr]
    · rw [hf.2.2.2.2.2.2.2.2]
      unfold reconcileRow
      simp [hh, hrtr]
  · intro hflag
    rw [hf.2.2.2.2.2.2.2.2]
    unfold reconcileRow
    simp [hflag]

/-- C9 witness: the sticky-flag theorem at a changed-hash ready-to-resolve
record and at a record whose flag is already set. -/
theorem resolved_flag_sticky_witness :
    c9ex.rowHash ≠ sampleRaw.rowHash ∧
    ((finalizeComposed (reconcileRow (some c9ex) sampleRaw)).group = "Resolved" ∧
     (finalizeComposed (reconcileRow (some c9ex) sampleRaw)).lrUpdatedAfterRes = true) ∧
    (finalizeComposed (reconcileRow (some c9exFlag) sampleRaw)).lrUpdatedAfterRes = true :=
  ⟨by decide, (resolved_flag_sticky c9ex sampleRaw).1 (by decide) rfl,
   (resolved_flag_sticky c9exFlag sampleRaw).2 rfl⟩

/-- C10: at the end of any push cycle the counters partition the
considered rows — considered = pushed + skipped-no-change +
skipped-not-ready + number of recorded errors — and a row whose composed
message is empty leaves the counters untouched. -/
theorem push_counters_partition (label : String) (rows : List (WorkRow × Bool)) :
    ((pushUpdatesCounters label rows).rowsConsidered =
      (pushUpdatesCounters label rows).rowsPushed +
      (pushUpdatesCounters label rows).rowsSkippedNoChange +
      (pushUpdatesCounters label rows).rowsSkippedNotReady +
      (pushUpdatesCounters label rows).errors.length) ∧
    ∀ (st : PushState) (row : WorkRow) (ok : Bool),
      jsTrim row.composed = "" → pushStep label st (row, ok) = st := by
  constructor
  · exact pushFold_partition label rows ⟨0, 0, 0, 0, []⟩ rfl
  · intro st row ok h
    unfold pushStep rowOutcome
    simp [h]

/-- C10 witness: the partition at a concrete batch hitting all four
buckets, and a concrete empty-composed row leaving a counter state
unchanged. -/
theorem push_counters_partition_witness :
    ((pushUpdatesCounters "L" samplePushRows).rowsConsidered =
      (pushUpdatesCounters "L" samplePushRows).rowsPushed +
      (pushUpdatesCounters "L" samplePushRows).rowsSkippedNoChange +
      (pushUpdatesCounters "L" samplePushRows).rowsSkippedNotReady +
      (pushUpdatesCounters "L" samplePushRows).errors.length) ∧
    jsTrim ({ samplePushRow with composed := "" } : WorkRow).composed = "" ∧
    pushStep "L" samplePushState ({ samplePushRow with composed := "" }, true) =
      samplePushState :=
  ⟨(push_counters_partition "L" samplePushRows).1, by decide,
   (push_counters_partition "L" samplePushRows).2 samplePushState _ true (by decide)⟩

end LiveRamp
